import Mathlib

/-!
Verification of the Battle Cats save-editor core (`src/core/save_editor.py`,
salt constant from `src/core/config.py`) against its specification.

The save file is modelled as a `List Nat` of byte values.  A `SaveEditor`
holds an optional file handle; when the handle is open it carries the file's
byte contents.  `set_cat_food` and `set_xp` mirror the Python methods
branch-for-branch: the Python code computes `hex(amount)[2:]` and dispatches
on its length, slicing hex-digit substrings and writing the resulting bytes
at fixed offsets via seek/write.  Here the hex string is modelled as the
most-significant-first list of base-16 digit values (`hexDigits`), string
slices become `take`/`drop`, and `bytes.fromhex` of a slice becomes its
big-endian digit value (`digitsVal`).  `patch_checksum` mirrors the static
method, including the `checksum.decode()` UTF-8 decode (which raises on
undecodable bytes) and the `f.seek(-32, os.SEEK_END)` call (which raises on
files shorter than 32 bytes); MD5 is implemented in full (RFC 1321).
-/

/-- Fuel-driven digit counter: with fuel at least `n`, counts the base-16
digits of `n` (at least one, since `hex(0)[2:] = "0"`). -/
def hexLenAux : Nat → Nat → Nat
  | 0, _ => 1
  | fuel + 1, n => if n < 16 then 1 else hexLenAux fuel (n / 16) + 1

/-- Digit count of `hex(n)[2:]`, the Python lowercase hex rendering of `n`
without the `0x` prefix; `hex(0)[2:] = "0"` has length 1. -/
def hexLen (n : Nat) : Nat := hexLenAux n n

/-- The base-16 digit values of `hex(n)[2:]`, most-significant digit first,
mirroring the character sequence of the Python hex string. -/
def hexDigits (n : Nat) : List Nat :=
  (List.range (hexLen n)).reverse.map (fun i => n / 16 ^ i % 16)

/-- Big-endian numeric value of a list of hex-digit values: the byte value
that `bytes.fromhex` assigns to a two-digit slice (and the building block
for one-digit slices prefixed with "0"). -/
def digitsVal (ds : List Nat) : Nat := ds.foldl (fun a d => 16 * a + d) 0

set_option maxRecDepth 100000

deriving instance DecidableEq for Except

/-- Error raised by the editor methods when the save file is not open,
mirroring `raise RuntimeError("Save file is not open")`. -/
inductive RuntimeError where
  | saveFileNotOpen
  deriving DecidableEq, Repr

/-- The save editor: `fileHandle` is `none` outside the context manager and
`some buf` when the file is open with contents `buf`. -/
structure SaveEditor where
  fileHandle : Option (List Nat)
  deriving DecidableEq, Repr

/-- Branch dispatch of `SaveEditor.set_cat_food` (src/core/save_editor.py
lines 46-86): writes `amount` little-endian at offset 7 for hex lengths
1-4, zero-padding offsets 8 and 9; any other hex length matches no branch
and leaves the file untouched. -/
def set_cat_food_write (buf : List Nat) (amount : Nat) : List Nat :=
  let hex_value := hexDigits amount
  let length := hex_value.length
  if length = 1 then
    ((buf.set 7 (digitsVal ([0] ++ hex_value))).set 8 0).set 9 0
  else if length = 2 then
    ((buf.set 7 (digitsVal hex_value)).set 8 0).set 9 0
  else if length = 3 then
    let byte1 := digitsVal ([0] ++ hex_value.take 1)
    let byte2 := digitsVal (hex_value.drop 1)
    ((buf.set 7 byte2).set 8 byte1).set 9 0
  else if length = 4 then
    let byte1 := digitsVal ((hex_value.drop (length - 4)).take 2)
    let byte2 := digitsVal (hex_value.drop (length - 2))
    ((buf.set 7 byte2).set 8 byte1).set 9 0
  else
    buf

/-- Model of `SaveEditor.set_cat_food` (src/core/save_editor.py lines
36-86): raises `RuntimeError` when the file handle is not open, otherwise
performs the branch writes on the file contents. -/
def set_cat_food (ed : SaveEditor) (amount : Nat) :
    Except RuntimeError SaveEditor :=
  match ed.fileHandle with
  | none => .error .saveFileNotOpen
  | some buf => .ok ⟨some (set_cat_food_write buf amount)⟩

/-- Branch dispatch of `SaveEditor.set_xp` (src/core/save_editor.py lines
98-177): writes `amount` little-endian at offset 76 for hex lengths 1-7,
zero-padding the remainder of the 4-byte window; any other hex length
matches no branch and leaves the file untouched. -/
def set_xp_write (buf : List Nat) (amount : Nat) : List Nat :=
  let hex_value := hexDigits amount
  let length := hex_value.length
  if length = 1 then
    (((buf.set 76 (digitsVal ([0] ++ hex_value))).set 77 0).set 78 0).set 79 0
  else if length = 2 then
    (((buf.set 76 (digitsVal hex_value)).set 77 0).set 78 0).set 79 0
  else if length = 3 then
    let byte1 := digitsVal ([0] ++ hex_value.take 1)
    let byte2 := digitsVal (hex_value.drop 1)
    (((buf.set 76 byte2).set 77 byte1).set 78 0).set 79 0
  else if length = 4 then
    let byte1 := digitsVal ((hex_value.drop (length - 4)).take 2)
    let byte2 := digitsVal (hex_value.drop (length - 2))
    (((buf.set 76 byte2).set 77 byte1).set 78 0).set 79 0
  else if length = 5 then
    let byte1 := digitsVal ([0] ++ hex_value.take 1)
    let byte2 := digitsVal ((hex_value.drop 1).take 2)
    let byte3 := digitsVal (hex_value.drop 3)
    (((buf.set 76 byte3).set 77 byte2).set 78 byte1).set 79 0
  else if length = 6 then
    let byte1 := digitsVal (hex_value.drop 4)
    let byte2 := digitsVal ((hex_value.drop 2).take 2)
    let byte3 := digitsVal (hex_value.take 2)
    (((buf.set 76 byte1).set 77 byte2).set 78 byte3).set 79 0
  else if length = 7 then
    let byte1 := digitsVal (hex_value.drop 5)
    let byte2 := digitsVal ((hex_value.drop 3).take 2)
    let byte3 := digitsVal ((hex_value.drop 1).take 2)
    let byte4 := digitsVal ([0] ++ hex_value.take 1)
    (((buf.set 76 byte1).set 77 byte2).set 78 byte3).set 79 byte4
  else
    buf

/-- Model of `SaveEditor.set_xp` (src/core/save_editor.py lines 88-177):
raises `RuntimeError` when the file handle is not open, otherwise performs
the branch writes on the file contents. -/
def set_xp (ed : SaveEditor) (amount : Nat) : Except RuntimeError SaveEditor :=
  match ed.fileHandle with
  | none => .error .saveFileNotOpen
  | some buf => .ok ⟨some (set_xp_write buf amount)⟩

/-- Value decoded from the 3-byte little-endian window at `off`, the
read-back interpretation of the cat-food field. -/
def decodeLE3 (buf : List Nat) (off : Nat) : Nat :=
  buf.getD off 0 + 256 * buf.getD (off + 1) 0 + 65536 * buf.getD (off + 2) 0

/-- Value decoded from the 4-byte little-endian window at `off`, the
read-back interpretation of the XP field. -/
def decodeLE4 (buf : List Nat) (off : Nat) : Nat :=
  buf.getD off 0 + 256 * buf.getD (off + 1) 0 + 65536 * buf.getD (off + 2) 0 +
    16777216 * buf.getD (off + 3) 0

/-! MD5 (RFC 1321), modelling `hashlib.md5(...).hexdigest()` over byte
lists, with words as `Nat` reduced mod `2^32`. -/

/-- Reduction of a word to 32 bits. -/
def w32 (n : Nat) : Nat := n % 4294967296

/-- Left rotation of a 32-bit word by `s` places. -/
def rotl32 (x s : Nat) : Nat := ((x <<< s) % 4294967296) ||| (x >>> (32 - s))

/-- Round function F of MD5 (rounds 0-15). -/
def mdF (b c d : Nat) : Nat := (b &&& c) ||| ((b ^^^ 4294967295) &&& d)

/-- Round function G of MD5 (rounds 16-31). -/
def mdG (b c d : Nat) : Nat := (d &&& b) ||| ((d ^^^ 4294967295) &&& c)

/-- Round function H of MD5 (rounds 32-47). -/
def mdH (b c d : Nat) : Nat := b ^^^ c ^^^ d

/-- Round function I of MD5 (rounds 48-63). -/
def mdI (b c d : Nat) : Nat := c ^^^ (b ||| (d ^^^ 4294967295))

/-- The 64 MD5 sine-derived constants `floor(2^32 * abs(sin(i+1)))`. -/
def md5K : List Nat :=
  [0xd76aa478, 0xe8c7b756, 0x242070db, 0xc1bdceee,
   0xf57c0faf, 0x4787c62a, 0xa8304613, 0xfd469501,
   0x698098d8, 0x8b44f7af, 0xffff5bb1, 0x895cd7be,
   0x6b901122, 0xfd987193, 0xa679438e, 0x49b40821,
   0xf61e2562, 0xc040b340, 0x265e5a51, 0xe9b6c7aa,
   0xd62f105d, 0x02441453, 0xd8a1e681, 0xe7d3fbc8,
   0x21e1cde6, 0xc33707d6, 0xf4d50d87, 0x455a14ed,
   0xa9e3e905, 0xfcefa3f8, 0x676f02d9, 0x8d2a4c8a,
   0xfffa3942, 0x8771f681, 0x6d9d6122, 0xfde5380c,
   0xa4beea44, 0x4bdecfa9, 0xf6bb4b60, 0xbebfbc70,
   0x289b7ec6, 0xeaa127fa, 0xd4ef3085, 0x04881d05,
   0xd9d4d039, 0xe6db99e5, 0x1fa27cf8, 0xc4ac5665,
   0xf4292244, 0x432aff97, 0xab9423a7, 0xfc93a039,
   0x655b59c3, 0x8f0ccc92, 0xffeff47d, 0x85845dd1,
   0x6fa87e4f, 0xfe2ce6e0, 0xa3014314, 0x4e0811a1,
   0xf7537e82, 0xbd3af235, 0x2ad7d2bb, 0xeb86d391]

/-- The 64 MD5 per-round left-rotation amounts. -/
def md5S : List Nat :=
  [7, 12, 17, 22, 7, 12, 17, 22, 7, 12, 17, 22, 7, 12, 17, 22,
   5, 9, 14, 20, 5, 9, 14, 20, 5, 9, 14, 20, 5, 9, 14, 20,
   4, 11, 16, 23, 4, 11, 16, 23, 4, 11, 16, 23, 4, 11, 16, 23,
   6, 10, 15, 21, 6, 10, 15, 21, 6, 10, 15, 21, 6, 10, 15, 21]

/-- The sixteen 32-bit little-endian message words of one 64-byte chunk. -/
def chunkWords (chunk : List Nat) : List Nat :=
  (List.range 16).map fun j =>
    chunk.getD (4 * j) 0 + 256 * chunk.getD (4 * j + 1) 0 +
      65536 * chunk.getD (4 * j + 2) 0 + 16777216 * chunk.getD (4 * j + 3) 0

/-- One MD5 round on state `(a, b, c, d)` with message words `M`. -/
def md5Round (M : List Nat) (st : Nat × Nat × Nat × Nat) (i : Nat) :
    Nat × Nat × Nat × Nat :=
  let (a, b, c, d) := st
  let f :=
    if i < 16 then mdF b c d
    else if i < 32 then mdG b c d
    else if i < 48 then mdH b c d
    else mdI b c d
  let g :=
    if i < 16 then i
    else if i < 32 then (5 * i + 1) % 16
    else if i < 48 then (3 * i + 5) % 16
    else 7 * i % 16
  let tmp := w32 (f + a + md5K.getD i 0 + M.getD g 0)
  (d, w32 (b + rotl32 tmp (md5S.getD i 0)), b, c)

/-- Processing of one 64-byte chunk: 64 rounds followed by the feed-forward
addition of the incoming state. -/
def md5Chunk (st : Nat × Nat × Nat × Nat) (chunk : List Nat) :
    Nat × Nat × Nat × Nat :=
  let M := chunkWords chunk
  let r := (List.range 64).foldl (md5Round M) st
  (w32 (st.1 + r.1), w32 (st.2.1 + r.2.1), w32 (st.2.2.1 + r.2.2.1),
    w32 (st.2.2.2 + r.2.2.2))

/-- Fold of `md5Chunk` over the consecutive 64-byte chunks of `l` (whose
length is a multiple of 64 after padding). -/
def md5Chunks (st : Nat × Nat × Nat × Nat) (l : List Nat) :
    Nat × Nat × Nat × Nat :=
  (List.range (l.length / 64)).foldl
    (fun s i => md5Chunk s ((l.drop (64 * i)).take 64)) st

/-- The four little-endian bytes of a 32-bit word. -/
def toLE4 (x : Nat) : List Nat :=
  [x % 256, x / 256 % 256, x / 65536 % 256, x / 16777216 % 256]

/-- The eight little-endian bytes of a 64-bit word. -/
def toLE8 (x : Nat) : List Nat :=
  toLE4 x ++ toLE4 (x / 4294967296)

/-- MD5 padding: a `0x80` byte, zeros up to 56 mod 64, then the original
bit length as a 64-bit little-endian word. -/
def md5Pad (msg : List Nat) : List Nat :=
  msg ++ [128] ++ List.replicate ((119 - msg.length % 64) % 64) 0 ++
    toLE8 (8 * msg.length % 18446744073709551616)

/-- The 16-byte MD5 digest of a byte list. -/
def md5Bytes (msg : List Nat) : List Nat :=
  let r := md5Chunks (0x67452301, 0xefcdab89, 0x98badcfe, 0x10325476) (md5Pad msg)
  toLE4 r.1 ++ toLE4 r.2.1 ++ toLE4 r.2.2.1 ++ toLE4 r.2.2.2

/-- ASCII code of the lowercase hex digit for `d < 16`, as produced by
`hexdigest` and `binascii.hexlify`. -/
def hexChar (d : Nat) : Nat := if d < 10 then 48 + d else 87 + d

/-- Lowercase ASCII hex rendering of a byte list, two characters per byte:
`binascii.hexlify`. -/
def hexlify (bs : List Nat) : List Nat :=
  bs.foldr (fun b acc => hexChar (b / 16) :: hexChar (b % 16) :: acc) []

/-- ASCII codes of `hashlib.md5(msg).hexdigest()`: the 32 lowercase hex
characters of the digest. -/
def md5_hexdigest (msg : List Nat) : List Nat := hexlify (md5Bytes msg)

/-! Strict UTF-8 decoding, modelling Python's `bytes.decode()` which raises
`UnicodeDecodeError` on invalid input (overlong forms, surrogates, values
above U+10FFFF, truncated or stray continuation bytes all rejected). -/

/-- UTF-8 continuation byte test. -/
def isCont (c : Nat) : Bool := decide (128 ≤ c ∧ c ≤ 191)

/-- Valid second byte after a three-byte lead: excludes overlong forms
(lead 0xE0) and surrogates (lead 0xED). -/
def second3Ok (b c : Nat) : Bool :=
  if b = 224 then decide (160 ≤ c ∧ c ≤ 191)
  else if b = 237 then decide (128 ≤ c ∧ c ≤ 159)
  else isCont c

/-- Valid second byte after a four-byte lead: excludes overlong forms
(lead 0xF0) and codepoints above U+10FFFF (lead 0xF4). -/
def second4Ok (b c : Nat) : Bool :=
  if b = 240 then decide (144 ≤ c ∧ c ≤ 191)
  else if b = 244 then decide (128 ≤ c ∧ c ≤ 143)
  else isCont c

/-- One step of strict UTF-8 decoding: the first codepoint of the byte list
and the remaining bytes, or `none` when the head is not a valid sequence
(stray continuation byte, overlong form, surrogate, value above U+10FFFF,
or truncated sequence). -/
def utf8Step (l : List Nat) : Option (Nat × List Nat) :=
  match l with
  | [] => none
  | b :: t =>
    if b < 128 then some (b, t)
    else if 194 ≤ b ∧ b ≤ 223 then
      match t with
      | c :: t2 =>
        if isCont c then some ((b - 192) * 64 + (c - 128), t2) else none
      | [] => none
    else if 224 ≤ b ∧ b ≤ 239 then
      match t with
      | c :: d :: t3 =>
        if second3Ok b c && isCont d then
          some ((b - 224) * 4096 + (c - 128) * 64 + (d - 128), t3)
        else none
      | _ => none
    else if 240 ≤ b ∧ b ≤ 244 then
      match t with
      | c :: d :: e :: t4 =>
        if second4Ok b c && isCont d && isCont e then
          some ((b - 240) * 262144 + (c - 128) * 4096 + (d - 128) * 64 +
            (e - 128), t4)
        else none
      | _ => none
    else none

/-- Fuel-driven iteration of `utf8Step`; each step consumes at least one
byte, so fuel equal to the byte count always suffices. -/
def utf8DecodeAux : Nat → List Nat → Option (List Nat)
  | _, [] => some []
  | 0, _ :: _ => none
  | fuel + 1, b :: t =>
    match utf8Step (b :: t) with
    | none => none
    | some (cp, rest) => (utf8DecodeAux fuel rest).map (fun cs => cp :: cs)

/-- Strict UTF-8 decoding of a byte list to its codepoint list, `none` on
any input Python's `bytes.decode()` would raise on. -/
def utf8Decode (l : List Nat) : Option (List Nat) := utf8DecodeAux l.length l

/-- Numeric value of an ASCII hex digit, as accepted by `bytes.fromhex`. -/
def hexDigitVal (c : Nat) : Nat :=
  if c ≤ 57 then c - 48 else if c ≤ 70 then c - 55 else c - 87

/-- Byte list parsed from consecutive pairs of ASCII hex digits:
`bytes.fromhex` on a 2n-character hex string. -/
def bytes_fromhex : List Nat → List Nat
  | c1 :: c2 :: rest => (16 * hexDigitVal c1 + hexDigitVal c2) :: bytes_fromhex rest
  | _ => []

/-- ASCII bytes of `Config.CHECKSUM_SALT = b'battlecatsen'`
(src/core/config.py line 49). -/
def CHECKSUM_SALT : List Nat :=
  [98, 97, 116, 116, 108, 101, 99, 97, 116, 115, 101, 110]

/-- Exceptions `SaveEditor.patch_checksum` can raise: `UnicodeDecodeError`
from `checksum.decode()` on a tag that is not valid UTF-8, and the `OSError`
from `f.seek(-32, os.SEEK_END)` on a file shorter than 32 bytes. -/
inductive PatchError where
  | unicodeDecodeError
  | seekOutOfRange
  deriving DecidableEq, Repr

/-- Continuation of `patch_checksum` after `checksum.decode()`: given the
decode outcome of the stored tag, compare `new_checksum` (the hexdigest of
`CHECKSUM_SALT + data` with `data = raw_data[:-32]`) against the decoded
string, then either report `False` (already valid), raise from the
end-relative seek on a file shorter than 32 bytes, or overwrite the tag
with `binascii.hexlify(bytes.fromhex(new_checksum))` and report `True`. -/
def patch_decide : List Nat → Option (List Nat) → Except PatchError Bool × List Nat
  | buf, none => (.error .unicodeDecodeError, buf)
  | buf, some s =>
    if md5_hexdigest (CHECKSUM_SALT ++ buf.take (buf.length - 32)) ≠ s then
      if buf.length < 32 then (.error .seekOutOfRange, buf)
      else (.ok true, buf.take (buf.length - 32) ++
        hexlify (bytes_fromhex (md5_hexdigest (CHECKSUM_SALT ++
          buf.take (buf.length - 32)))))
    else (.ok false, buf)

/-- Model of `SaveEditor.patch_checksum` (src/core/save_editor.py lines
179-203) on the file contents `buf`.  Returns the Python return value (or
the exception raised) together with the resulting file contents; an
exception leaves the file unmodified since it occurs before the write.
Mirrors the source: `data, checksum = raw_data[:-32], raw_data[-32:]`
(Python slices, which on a short file make `data` empty and `checksum` the
whole file), then `checksum.decode()` (which raises `UnicodeDecodeError`
on non-UTF-8 tag bytes) followed by the comparison, seek and write steps
in `patch_decide`. -/
def patch_checksum (buf : List Nat) : Except PatchError Bool × List Nat :=
  patch_decide buf (utf8Decode (buf.drop (buf.length - 32)))

/-! Properties of the hex-digit model. -/

lemma hexLenAux_eq_log : ∀ fuel n, n ≤ fuel → hexLenAux fuel n = Nat.log 16 n + 1 := by
  intro fuel
  induction fuel with
  | zero =>
    intro n h
    have : n = 0 := by omega
    subst this
    simp [hexLenAux]
  | succ f ih =>
    intro n h
    by_cases h16 : n < 16
    · have : Nat.log 16 n = 0 := by
        rw [Nat.log_eq_zero_iff]
        omega
      simp [hexLenAux, h16, this]
    · have hp : 0 < Nat.log 16 n := Nat.log_pos (by norm_num) (by omega)
      have hrec : Nat.log 16 n = Nat.log 16 (n / 16) + 1 := by
        have := Nat.log_div_base 16 n
        omega
      simp only [hexLenAux, if_neg h16]
      rw [ih (n / 16) (by omega)]
      omega

lemma hexLen_eq_log (n : Nat) : hexLen n = Nat.log 16 n + 1 :=
  hexLenAux_eq_log n n le_rfl

lemma hexDigits_eq_of_log {n k : Nat} (h : Nat.log 16 n = k) :
    hexDigits n = (List.range (k + 1)).reverse.map (fun i => n / 16 ^ i % 16) := by
  unfold hexDigits
  rw [hexLen_eq_log, h]

lemma hexDigits_len1 {n : Nat} (h : n < 16) : hexDigits n = [n] := by
  have hl : Nat.log 16 n = 0 := by
    rcases Nat.eq_zero_or_pos n with h0 | h0
    · simp [h0]
    · exact Nat.log_eq_of_pow_le_of_lt_pow (by simpa) (by simpa)
  rw [hexDigits_eq_of_log hl]
  simp [List.range_succ]
  omega

lemma hexDigits_len2 {n : Nat} (h1 : 16 ≤ n) (h2 : n < 256) :
    hexDigits n = [n / 16, n % 16] := by
  have hl : Nat.log 16 n = 1 := Nat.log_eq_of_pow_le_of_lt_pow (by omega) (by omega)
  rw [hexDigits_eq_of_log hl]
  simp [List.range_succ]
  omega

lemma hexDigits_len3 {n : Nat} (h1 : 256 ≤ n) (h2 : n < 4096) :
    hexDigits n = [n / 256, n / 16 % 16, n % 16] := by
  have hl : Nat.log 16 n = 2 := Nat.log_eq_of_pow_le_of_lt_pow (by omega) (by omega)
  rw [hexDigits_eq_of_log hl]
  simp [List.range_succ]
  omega

lemma hexDigits_len4 {n : Nat} (h1 : 4096 ≤ n) (h2 : n < 65536) :
    hexDigits n = [n / 4096, n / 256 % 16, n / 16 % 16, n % 16] := by
  have hl : Nat.log 16 n = 3 := Nat.log_eq_of_pow_le_of_lt_pow (by omega) (by omega)
  rw [hexDigits_eq_of_log hl]
  simp [List.range_succ]
  omega

lemma hexDigits_len5 {n : Nat} (h1 : 65536 ≤ n) (h2 : n < 1048576) :
    hexDigits n = [n / 65536, n / 4096 % 16, n / 256 % 16, n / 16 % 16, n % 16] := by
  have hl : Nat.log 16 n = 4 := Nat.log_eq_of_pow_le_of_lt_pow (by omega) (by omega)
  rw [hexDigits_eq_of_log hl]
  simp [List.range_succ]
  omega

lemma hexDigits_len6 {n : Nat} (h1 : 1048576 ≤ n) (h2 : n < 16777216) :
    hexDigits n = [n / 1048576, n / 65536 % 16, n / 4096 % 16, n / 256 % 16,
      n / 16 % 16, n % 16] := by
  have hl : Nat.log 16 n = 5 := Nat.log_eq_of_pow_le_of_lt_pow (by omega) (by omega)
  rw [hexDigits_eq_of_log hl]
  simp [List.range_succ]
  omega

lemma hexDigits_len7 {n : Nat} (h1 : 16777216 ≤ n) (h2 : n < 268435456) :
    hexDigits n = [n / 16777216, n / 1048576 % 16, n / 65536 % 16, n / 4096 % 16,
      n / 256 % 16, n / 16 % 16, n % 16] := by
  have hl : Nat.log 16 n = 6 := Nat.log_eq_of_pow_le_of_lt_pow (by omega) (by omega)
  rw [hexDigits_eq_of_log hl]
  simp [List.range_succ]
  omega

lemma hexDigits_length (n : Nat) : (hexDigits n).length = Nat.log 16 n + 1 := by
  simp [hexDigits, hexLen_eq_log]

lemma hexDigits_length_ge5 {n : Nat} (h : 65536 ≤ n) : 5 ≤ (hexDigits n).length := by
  rw [hexDigits_length]
  have : 4 ≤ Nat.log 16 n := by
    have := (Nat.pow_le_iff_le_log (by norm_num) (by omega)).mp (by omega : 16 ^ 4 ≤ n)
    omega
  omega

lemma hexDigits_length_ge8 {n : Nat} (h : 268435456 ≤ n) : 8 ≤ (hexDigits n).length := by
  rw [hexDigits_length]
  have : 7 ≤ Nat.log 16 n := by
    have := (Nat.pow_le_iff_le_log (by norm_num) (by omega)).mp (by omega : 16 ^ 7 ≤ n)
    omega
  omega

/-! Normal forms of the two field writers: inside the handled ranges both
are the little-endian full-window overwrite, outside them both are the
identity. -/

lemma set_cat_food_write_eq {n : Nat} (buf : List Nat) (h : n < 65536) :
    set_cat_food_write buf n = ((buf.set 7 (n % 256)).set 8 (n / 256)).set 9 0 := by
  rcases Nat.lt_or_ge n 16 with h1 | h1
  · rw [set_cat_food_write, hexDigits_len1 h1]
    simp [digitsVal]
    repeat first | rfl | omega | congr 1
  rcases Nat.lt_or_ge n 256 with h2 | h2
  · rw [set_cat_food_write, hexDigits_len2 h1 h2]
    simp [digitsVal]
    repeat first | rfl | omega | congr 1
  rcases Nat.lt_or_ge n 4096 with h3 | h3
  · rw [set_cat_food_write, hexDigits_len3 h2 h3]
    simp [digitsVal]
    repeat first | rfl | omega | congr 1
  · rw [set_cat_food_write, hexDigits_len4 h3 h]
    simp [digitsVal]
    repeat first | rfl | omega | congr 1

lemma set_cat_food_write_noop {n : Nat} (buf : List Nat) (h : 65536 ≤ n) :
    set_cat_food_write buf n = buf := by
  have h5 := hexDigits_length_ge5 h
  rw [set_cat_food_write]
  have c1 : ¬ (hexDigits n).length = 1 := by omega
  have c2 : ¬ (hexDigits n).length = 2 := by omega
  have c3 : ¬ (hexDigits n).length = 3 := by omega
  have c4 : ¬ (hexDigits n).length = 4 := by omega
  simp [c1, c2, c3, c4]

lemma set_xp_write_eq {n : Nat} (buf : List Nat) (h : n < 268435456) :
    set_xp_write buf n =
      (((buf.set 76 (n % 256)).set 77 (n / 256 % 256)).set 78 (n / 65536 % 256)).set
        79 (n / 16777216) := by
  rcases Nat.lt_or_ge n 16 with h1 | h1
  · rw [set_xp_write, hexDigits_len1 h1]
    simp [digitsVal]
    repeat first | rfl | omega | congr 1
  rcases Nat.lt_or_ge n 256 with h2 | h2
  · rw [set_xp_write, hexDigits_len2 h1 h2]
    simp [digitsVal]
    repeat first | rfl | omega | congr 1
  rcases Nat.lt_or_ge n 4096 with h3 | h3
  · rw [set_xp_write, hexDigits_len3 h2 h3]
    simp [digitsVal]
    repeat first | rfl | omega | congr 1
  rcases Nat.lt_or_ge n 65536 with h4 | h4
  · rw [set_xp_write, hexDigits_len4 h3 h4]
    simp [digitsVal]
    repeat first | rfl | omega | congr 1
  rcases Nat.lt_or_ge n 1048576 with h5 | h5
  · rw [set_xp_write, hexDigits_len5 h4 h5]
    simp [digitsVal]
    repeat first | rfl | omega | congr 1
  rcases Nat.lt_or_ge n 16777216 with h6 | h6
  · rw [set_xp_write, hexDigits_len6 h5 h6]
    simp [digitsVal]
    repeat first | rfl | omega | congr 1
  · rw [set_xp_write, hexDigits_len7 h6 h]
    simp [digitsVal]
    repeat first | rfl | omega | congr 1

lemma set_xp_write_noop {n : Nat} (buf : List Nat) (h : 268435456 ≤ n) :
    set_xp_write buf n = buf := by
  have h8 := hexDigits_length_ge8 h
  rw [set_xp_write]
  have c1 : ¬ (hexDigits n).length = 1 := by omega
  have c2 : ¬ (hexDigits n).length = 2 := by omega
  have c3 : ¬ (hexDigits n).length = 3 := by omega
  have c4 : ¬ (hexDigits n).length = 4 := by omega
  have c5 : ¬ (hexDigits n).length = 5 := by omega
  have c6 : ¬ (hexDigits n).length = 6 := by omega
  have c7 : ¬ (hexDigits n).length = 7 := by omega
  simp [c1, c2, c3, c4, c5, c6, c7]

/-! Reading back written windows. -/

lemma getD_set_self {l : List Nat} {i a : Nat} (h : i < l.length) :
    (l.set i a).getD i 0 = a := by
  simp [List.getD_eq_getElem?_getD, List.getElem?_set_self h]

lemma getD_set_ne {l : List Nat} {i j : Nat} (h : i ≠ j) (a : Nat) :
    (l.set i a).getD j 0 = l.getD j 0 := by
  simp [List.getD_eq_getElem?_getD, List.getElem?_set_ne h]

lemma set3_getD (buf : List Nat) (x y z : Nat) (h : 10 ≤ buf.length) :
    (((buf.set 7 x).set 8 y).set 9 z).getD 7 0 = x ∧
    (((buf.set 7 x).set 8 y).set 9 z).getD 8 0 = y ∧
    (((buf.set 7 x).set 8 y).set 9 z).getD 9 0 = z := by
  refine ⟨?_, ?_, ?_⟩
  · rw [getD_set_ne (by omega), getD_set_ne (by omega), getD_set_self (by omega)]
  · rw [getD_set_ne (by omega), getD_set_self (by simp; omega)]
  · rw [getD_set_self (by simp; omega)]

lemma set4_getD (buf : List Nat) (x y z w : Nat) (h : 80 ≤ buf.length) :
    ((((buf.set 76 x).set 77 y).set 78 z).set 79 w).getD 76 0 = x ∧
    ((((buf.set 76 x).set 77 y).set 78 z).set 79 w).getD 77 0 = y ∧
    ((((buf.set 76 x).set 77 y).set 78 z).set 79 w).getD 78 0 = z ∧
    ((((buf.set 76 x).set 77 y).set 78 z).set 79 w).getD 79 0 = w := by
  refine ⟨?_, ?_, ?_, ?_⟩
  · rw [getD_set_ne (by omega), getD_set_ne (by omega), getD_set_ne (by omega),
      getD_set_self (by omega)]
  · rw [getD_set_ne (by omega), getD_set_ne (by omega), getD_set_self (by simp; omega)]
  · rw [getD_set_ne (by omega), getD_set_self (by simp; omega)]
  · rw [getD_set_self (by simp; omega)]

lemma cat_roundtrip {n : Nat} (buf : List Nat) (h : n < 65536)
    (hlen : 10 ≤ buf.length) : decodeLE3 (set_cat_food_write buf n) 7 = n := by
  rw [set_cat_food_write_eq buf h]
  obtain ⟨h7, h8, h9⟩ := set3_getD buf (n % 256) (n / 256) 0 hlen
  simp only [decodeLE3, Nat.reduceAdd]
  rw [h7, h8, h9]
  omega

lemma xp_roundtrip {n : Nat} (buf : List Nat) (h : n < 268435456)
    (hlen : 80 ≤ buf.length) : decodeLE4 (set_xp_write buf n) 76 = n := by
  rw [set_xp_write_eq buf h]
  obtain ⟨h6, h7, h8, h9⟩ :=
    set4_getD buf (n % 256) (n / 256 % 256) (n / 65536 % 256) (n / 16777216) hlen
  simp only [decodeLE4, Nat.reduceAdd]
  rw [h6, h7, h8, h9]
  omega

/-! Claim theorems for the field encoders. -/

lemma length_replicate_ge {k n : Nat} (x : Nat) (h : k ≤ n) :
    k ≤ (List.replicate n x).length := by
  rw [List.length_replicate]
  exact h

/-- C1 (amended): for every value below `2^16` (the range the branch
structure actually handles), calling `set_cat_food` on an open editor with
a sufficiently long buffer succeeds and decoding the 3-byte little-endian
window at offset 7 of the resulting buffer yields exactly that value. -/
theorem set_cat_food_roundtrip (amount : Nat) (buf : List Nat)
    (hv : amount < 65536) (hlen : 10 ≤ buf.length) :
    ∃ buf2, set_cat_food ⟨some buf⟩ amount = .ok ⟨some buf2⟩ ∧
      decodeLE3 buf2 7 = amount :=
  ⟨set_cat_food_write buf amount, rfl, cat_roundtrip buf hv hlen⟩

/-- Witness for C1: cat food `1000` on a 200-byte zero buffer decodes back
to `1000`. -/
theorem set_cat_food_roundtrip_witness :
    1000 < 65536 ∧ 10 ≤ (List.replicate 200 0).length ∧
    ∃ buf2, set_cat_food ⟨some (List.replicate 200 0)⟩ 1000 = .ok ⟨some buf2⟩ ∧
      decodeLE3 buf2 7 = 1000 :=
  ⟨by norm_num, length_replicate_ge 0 (by norm_num),
    set_cat_food_roundtrip 1000 (List.replicate 200 0) (by norm_num)
      (length_replicate_ge 0 (by norm_num))⟩

/-- Counterexample to C1 as stated: `65536` lies in `[0, 2^24)` but its hex
string has five digits, so `set_cat_food` matches no branch, leaves the
zero buffer untouched, and the window decodes to `0`, not `65536`. -/
theorem set_cat_food_roundtrip_cex :
    65536 < 16777216 ∧
    set_cat_food ⟨some (List.replicate 10 0)⟩ 65536 =
      .ok ⟨some (List.replicate 10 0)⟩ ∧
    decodeLE3 (List.replicate 10 0) 7 ≠ 65536 := by
  refine ⟨by norm_num, ?_, by decide⟩
  show Except.ok (SaveEditor.mk (some (set_cat_food_write (List.replicate 10 0) 65536))) = _
  rw [set_cat_food_write_noop _ (by norm_num)]

/-- C2 (amended): for every value below `2^28` (the range the 1-7 hex-digit
branches actually handle), calling `set_xp` on an open editor with a
sufficiently long buffer succeeds and decoding the 4-byte little-endian
window at offset 76 of the resulting buffer yields exactly that value. -/
theorem set_xp_roundtrip (amount : Nat) (buf : List Nat)
    (hv : amount < 268435456) (hlen : 80 ≤ buf.length) :
    ∃ buf2, set_xp ⟨some buf⟩ amount = .ok ⟨some buf2⟩ ∧
      decodeLE4 buf2 76 = amount :=
  ⟨set_xp_write buf amount, rfl, xp_roundtrip buf hv hlen⟩

/-- Witness for C2: XP `5000000` on a 200-byte zero buffer decodes back to
`5000000`. -/
theorem set_xp_roundtrip_witness :
    5000000 < 268435456 ∧ 80 ≤ (List.replicate 200 0).length ∧
    ∃ buf2, set_xp ⟨some (List.replicate 200 0)⟩ 5000000 = .ok ⟨some buf2⟩ ∧
      decodeLE4 buf2 76 = 5000000 :=
  ⟨by norm_num, length_replicate_ge 0 (by norm_num),
    set_xp_roundtrip 5000000 (List.replicate 200 0) (by norm_num)
      (length_replicate_ge 0 (by norm_num))⟩

/-- Counterexample to C2 as stated: `2^28` lies in `[0, 2^32)` but its hex
string has eight digits, so `set_xp` matches no branch, leaves the zero
buffer untouched, and the window decodes to `0`, not `2^28`. -/
theorem set_xp_roundtrip_cex :
    268435456 < 4294967296 ∧
    set_xp ⟨some (List.replicate 100 0)⟩ 268435456 =
      .ok ⟨some (List.replicate 100 0)⟩ ∧
    decodeLE4 (List.replicate 100 0) 76 ≠ 268435456 := by
  refine ⟨by norm_num, ?_, by decide⟩
  show Except.ok (SaveEditor.mk (some (set_xp_write (List.replicate 100 0) 268435456))) = _
  rw [set_xp_write_noop _ (by norm_num)]

/-- C6 (amended): values not representable in the field width are not
rejected: for every cat-food value of at least `2^24` and every XP value of
at least `2^32` the encoder returns successfully (no `ValueOutOfRange` or
any other error exists) and leaves the buffer byte-for-byte unchanged. -/
theorem encoder_overflow_no_error (buf : List Nat) (v w : Nat)
    (hv : 16777216 ≤ v) (hw : 4294967296 ≤ w) :
    set_cat_food ⟨some buf⟩ v = .ok ⟨some buf⟩ ∧
    set_xp ⟨some buf⟩ w = .ok ⟨some buf⟩ := by
  constructor
  · show Except.ok (SaveEditor.mk (some (set_cat_food_write buf v))) = _
    rw [set_cat_food_write_noop _ (by omega)]
  · show Except.ok (SaveEditor.mk (some (set_xp_write buf w))) = _
    rw [set_xp_write_noop _ (by omega)]

/-- Witness for C6 (amended): at `2^24` and `2^32` both encoders return
successfully on a 100-byte buffer. -/
theorem encoder_overflow_no_error_witness :
    16777216 ≤ 16777216 ∧ 4294967296 ≤ 4294967296 ∧
    (set_cat_food ⟨some (List.replicate 100 3)⟩ 16777216 =
        .ok ⟨some (List.replicate 100 3)⟩ ∧
      set_xp ⟨some (List.replicate 100 3)⟩ 4294967296 =
        .ok ⟨some (List.replicate 100 3)⟩) :=
  ⟨le_rfl, le_rfl,
    encoder_overflow_no_error (List.replicate 100 3) 16777216 4294967296 le_rfl le_rfl⟩

/-- Counterexample to C6 as stated: at `2^24` (not representable in the
3-byte cat-food field) `set_cat_food` succeeds instead of failing with
`ValueOutOfRange`. -/
theorem encoder_overflow_cex :
    set_cat_food ⟨some (List.replicate 10 0)⟩ 16777216 =
      .ok ⟨some (List.replicate 10 0)⟩ := by
  show Except.ok (SaveEditor.mk (some (set_cat_food_write (List.replicate 10 0) 16777216))) = _
  rw [set_cat_food_write_noop _ (by norm_num)]

/-- C7 (amended): on the ranges the branches handle (cat food below `2^16`,
XP below `2^28`) the writers perform a full-width little-endian overwrite:
every byte of the window is written, bytes not needed for the value being
written as `0x00` (the high window bytes equal the corresponding shifted
byte of the value, which is zero when unneeded). -/
theorem encoder_full_window_overwrite (bufc bufx : List Nat) (v w : Nat)
    (hv : v < 65536) (hw : w < 268435456)
    (hc : 10 ≤ bufc.length) (hx : 80 ≤ bufx.length) :
    ((set_cat_food_write bufc v).getD 7 0 = v % 256 ∧
     (set_cat_food_write bufc v).getD 8 0 = v / 256 % 256 ∧
     (set_cat_food_write bufc v).getD 9 0 = v / 65536 % 256) ∧
    ((set_xp_write bufx w).getD 76 0 = w % 256 ∧
     (set_xp_write bufx w).getD 77 0 = w / 256 % 256 ∧
     (set_xp_write bufx w).getD 78 0 = w / 65536 % 256 ∧
     (set_xp_write bufx w).getD 79 0 = w / 16777216 % 256) := by
  constructor
  · rw [set_cat_food_write_eq bufc hv]
    obtain ⟨h7, h8, h9⟩ := set3_getD bufc (v % 256) (v / 256) 0 hc
    refine ⟨h7, ?_, ?_⟩
    · rw [h8]; omega
    · rw [h9]; omega
  · rw [set_xp_write_eq bufx hw]
    obtain ⟨h6, h7, h8, h9⟩ :=
      set4_getD bufx (w % 256) (w / 256 % 256) (w / 65536 % 256) (w / 16777216) hx
    refine ⟨h6, h7, h8, ?_⟩
    rw [h9]; omega

/-- Witness for C7 (amended): cat food `1000` writes `[0xE8, 0x03, 0x00]`
at offsets 7-9 and XP `5000000` writes `[0x40, 0x4B, 0x4C, 0x00]` at
offsets 76-79, evaluated on 200-byte zero buffers. -/
theorem encoder_full_window_overwrite_witness :
    1000 < 65536 ∧ 5000000 < 268435456 ∧
    (((set_cat_food_write (List.replicate 200 0) 1000).getD 7 0 = 1000 % 256 ∧
      (set_cat_food_write (List.replicate 200 0) 1000).getD 8 0 = 1000 / 256 % 256 ∧
      (set_cat_food_write (List.replicate 200 0) 1000).getD 9 0 = 1000 / 65536 % 256) ∧
     ((set_xp_write (List.replicate 200 0) 5000000).getD 76 0 = 5000000 % 256 ∧
      (set_xp_write (List.replicate 200 0) 5000000).getD 77 0 = 5000000 / 256 % 256 ∧
      (set_xp_write (List.replicate 200 0) 5000000).getD 78 0 = 5000000 / 65536 % 256 ∧
      (set_xp_write (List.replicate 200 0) 5000000).getD 79 0 = 5000000 / 16777216 % 256)) :=
  ⟨by norm_num, by norm_num,
    encoder_full_window_overwrite (List.replicate 200 0) (List.replicate 200 0)
      1000 5000000 (by norm_num) (by norm_num) (length_replicate_ge 0 (by norm_num))
      (length_replicate_ge 0 (by norm_num))⟩

/-- Counterexample to C7 as stated: `0xFFFFFF = 256^3 - 1` is in range for
the 3-byte cat-food field (the spec's own boundary case, which should write
all-`0xFF`), yet the writer leaves a stale buffer completely untouched:
the stale byte `9` at offset 9 survives. -/
theorem encoder_full_window_overwrite_cex :
    16777215 < 16777216 ∧
    set_cat_food_write (List.replicate 10 9) 16777215 = List.replicate 10 9 ∧
    (List.replicate 10 9).getD 9 0 ≠ 0 :=
  ⟨by norm_num, set_cat_food_write_noop _ (by norm_num), by decide⟩

/-- C9: for every cat-food amount whose hex string has more than 4 digits
but at most 6 (`65536 ≤ v < 2^24`) and every XP amount whose hex string has
more than 7 digits (`w ≥ 2^28`), the encoder call succeeds and leaves every
byte of the buffer unchanged: a silent no-op. -/
theorem encoder_unhandled_length_noop (buf : List Nat) (v w : Nat)
    (hv1 : 65536 ≤ v) (hv2 : v < 16777216) (hw : 268435456 ≤ w) :
    set_cat_food ⟨some buf⟩ v = .ok ⟨some buf⟩ ∧
    set_xp ⟨some buf⟩ w = .ok ⟨some buf⟩ := by
  constructor
  · show Except.ok (SaveEditor.mk (some (set_cat_food_write buf v))) = _
    rw [set_cat_food_write_noop _ hv1]
  · show Except.ok (SaveEditor.mk (some (set_xp_write buf w))) = _
    rw [set_xp_write_noop _ hw]

/-- Witness for C9: cat food `65536` and XP `2^28` are silent no-ops on a
100-byte buffer of sevens. -/
theorem encoder_unhandled_length_noop_witness :
    65536 ≤ 65536 ∧ 65536 < 16777216 ∧ 268435456 ≤ 268435456 ∧
    (set_cat_food ⟨some (List.replicate 100 7)⟩ 65536 =
        .ok ⟨some (List.replicate 100 7)⟩ ∧
      set_xp ⟨some (List.replicate 100 7)⟩ 268435456 =
        .ok ⟨some (List.replicate 100 7)⟩) :=
  ⟨le_rfl, by norm_num, le_rfl,
    encoder_unhandled_length_noop (List.replicate 100 7) 65536 268435456
      le_rfl (by norm_num) le_rfl⟩

/-- C10: for every amount, calling `set_cat_food` or `set_xp` when the save
file has not been opened (file handle `none`) raises `RuntimeError` and no
byte is ever written (no open file contents exist to write to). -/
theorem encoder_requires_open_file (amount : Nat) :
    set_cat_food ⟨none⟩ amount = .error .saveFileNotOpen ∧
    set_xp ⟨none⟩ amount = .error .saveFileNotOpen :=
  ⟨rfl, rfl⟩

/-! Behaviour of the strict UTF-8 decoder. -/

lemma second3Ok_lower {b c : Nat} (hb : 224 ≤ b) (h : second3Ok b c = true) :
    160 ≤ c ∨ 225 ≤ b := by
  unfold second3Ok at h
  split_ifs at h with h1 h2
  · left
    simp at h
    omega
  · right
    omega
  · right
    omega

lemma second4Ok_lower {b c : Nat} (hb : 240 ≤ b) (h : second4Ok b c = true) :
    144 ≤ c ∨ 241 ≤ b := by
  unfold second4Ok at h
  split_ifs at h with h1 h2
  · left
    simp at h
    omega
  · right
    omega
  · right
    omega

lemma utf8Step_ascii {b : Nat} (t : List Nat) (h : b < 128) :
    utf8Step (b :: t) = some (b, t) := by
  simp [utf8Step, h]

lemma utf8Step_some {b cp : Nat} {t rest : List Nat}
    (h : utf8Step (b :: t) = some (cp, rest)) :
    rest.length ≤ t.length ∧ (cp < 128 → cp = b ∧ rest = t) := by
  by_cases h1 : b < 128
  · rw [utf8Step_ascii t h1] at h
    simp at h
    simp [h.1, h.2]
  by_cases h2 : 194 ≤ b ∧ b ≤ 223
  · cases t with
    | nil => simp [utf8Step, h1, h2] at h
    | cons c t2 =>
      by_cases hc : isCont c
      · simp only [utf8Step, if_neg h1, if_pos h2, if_pos hc,
          Option.some.injEq, Prod.mk.injEq] at h
        obtain ⟨hcp, hrest⟩ := h
        subst hrest
        refine ⟨by simp only [List.length_cons]; omega, fun hlt => ?_⟩
        omega
      · simp [utf8Step, h1, h2, hc] at h
  by_cases h3 : 224 ≤ b ∧ b ≤ 239
  · match t with
    | [] => simp [utf8Step, h1, h2, h3] at h
    | [c] => simp [utf8Step, h1, h2, h3] at h
    | c :: d :: t3 =>
      by_cases hcd : second3Ok b c && isCont d
      · simp only [utf8Step, if_neg h1, if_neg h2, if_pos h3, if_pos hcd,
          Option.some.injEq, Prod.mk.injEq] at h
        obtain ⟨hcp, hrest⟩ := h
        subst hrest
        refine ⟨by simp only [List.length_cons]; omega, fun hlt => ?_⟩
        simp at hcd
        have := second3Ok_lower h3.1 hcd.1
        omega
      · simp [utf8Step, h1, h2, h3, hcd] at h
  by_cases h4 : 240 ≤ b ∧ b ≤ 244
  · match t with
    | [] => simp [utf8Step, h1, h2, h3, h4] at h
    | [c] => simp [utf8Step, h1, h2, h3, h4] at h
    | [c, d] => simp [utf8Step, h1, h2, h3, h4] at h
    | c :: d :: e :: t4 =>
      by_cases hcde : second4Ok b c && isCont d && isCont e
      · simp only [utf8Step, if_neg h1, if_neg h2, if_neg h3, if_pos h4,
          if_pos hcde, Option.some.injEq, Prod.mk.injEq] at h
        obtain ⟨hcp, hrest⟩ := h
        subst hrest
        refine ⟨by simp only [List.length_cons]; omega, fun hlt => ?_⟩
        simp at hcde
        have := second4Ok_lower h4.1 hcde.1.1
        omega
      · simp [utf8Step, h1, h2, h3, h4, hcde] at h
  · simp [utf8Step, h1, h2, h3, h4] at h

lemma utf8DecodeAux_spec :
    ∀ (fuel : Nat) (l : List Nat), l.length ≤ fuel → ∀ cs,
      utf8DecodeAux fuel l = some cs →
      cs.length ≤ l.length ∧ ((∀ c ∈ cs, c < 128) → l = cs) := by
  intro fuel
  induction fuel with
  | zero =>
    intro l hlen cs hdec
    cases l with
    | nil =>
      simp only [utf8DecodeAux, Option.some.injEq] at hdec
      subst hdec
      simp
    | cons b t => simp at hlen
  | succ n ih =>
    intro l hlen cs hdec
    cases l with
    | nil =>
      simp only [utf8DecodeAux, Option.some.injEq] at hdec
      subst hdec
      simp
    | cons b t =>
      rw [utf8DecodeAux] at hdec
      cases hstep : utf8Step (b :: t) with
      | none =>
        simp only [hstep] at hdec
        exact absurd hdec (by simp)
      | some pr =>
        obtain ⟨cp, rest⟩ := pr
        simp only [hstep, Option.map_eq_some'] at hdec
        obtain ⟨cs', hrec, hcs'⟩ := hdec
        subst hcs'
        obtain ⟨hrl, hascii⟩ := utf8Step_some hstep
        obtain ⟨hle, hinv⟩ := ih rest (by simp at hlen; omega) cs' hrec
        constructor
        · simp
          omega
        · intro hcs
          have hcp : cp < 128 := hcs cp (List.mem_cons_self _ _)
          obtain ⟨hcb, hrt⟩ := hascii hcp
          subst hcb
          subst hrt
          have : rest = cs' := hinv (fun c hc => hcs c (List.mem_cons_of_mem _ hc))
          rw [this]

lemma utf8Decode_length_le {l cs : List Nat} (h : utf8Decode l = some cs) :
    cs.length ≤ l.length :=
  (utf8DecodeAux_spec l.length l le_rfl cs h).1

lemma utf8Decode_ascii_inv {l cs : List Nat} (h : utf8Decode l = some cs)
    (hcs : ∀ c ∈ cs, c < 128) : l = cs :=
  (utf8DecodeAux_spec l.length l le_rfl cs h).2 hcs

lemma utf8DecodeAux_ascii :
    ∀ (fuel : Nat) (l : List Nat), l.length ≤ fuel → (∀ b ∈ l, b < 128) →
      utf8DecodeAux fuel l = some l := by
  intro fuel
  induction fuel with
  | zero =>
    intro l hlen hascii
    cases l with
    | nil => simp [utf8DecodeAux]
    | cons b t => simp at hlen
  | succ n ih =>
    intro l hlen hascii
    cases l with
    | nil => simp [utf8DecodeAux]
    | cons b t =>
      have hb := hascii b (List.mem_cons_self _ _)
      have ht := ih t (by simp at hlen; omega)
        (fun x hx => hascii x (List.mem_cons_of_mem b hx))
      rw [utf8DecodeAux]
      simp only [utf8Step_ascii t hb, ht]
      rfl

lemma utf8Decode_ascii {l : List Nat} (h : ∀ b ∈ l, b < 128) :
    utf8Decode l = some l :=
  utf8DecodeAux_ascii l.length l le_rfl h

/-! Hex rendering and parsing lemmas. -/

lemma hexChar_alphabet {d : Nat} (h : d < 16) :
    (48 ≤ hexChar d ∧ hexChar d ≤ 57) ∨ (97 ≤ hexChar d ∧ hexChar d ≤ 102) := by
  unfold hexChar
  split <;> omega

lemma hexChar_lt128 {d : Nat} (h : d < 16) : hexChar d < 128 := by
  rcases hexChar_alphabet h with h' | h' <;> omega

lemma hexDigitVal_hexChar {d : Nat} (h : d < 16) : hexDigitVal (hexChar d) = d := by
  unfold hexChar hexDigitVal
  split_ifs <;> omega

lemma hexlify_cons (b : Nat) (bs : List Nat) :
    hexlify (b :: bs) = hexChar (b / 16) :: hexChar (b % 16) :: hexlify bs := rfl

lemma hexlify_length : ∀ bs : List Nat, (hexlify bs).length = 2 * bs.length := by
  intro bs
  induction bs with
  | nil => rfl
  | cons b bs ih =>
    rw [hexlify_cons]
    simp only [List.length_cons, ih]
    omega

lemma hexlify_alphabet : ∀ bs : List Nat, (∀ b ∈ bs, b < 256) →
    ∀ c ∈ hexlify bs, (48 ≤ c ∧ c ≤ 57) ∨ (97 ≤ c ∧ c ≤ 102) := by
  intro bs
  induction bs with
  | nil => simp [hexlify]
  | cons b bs ih =>
    intro h c hc
    rw [hexlify_cons] at hc
    have hb : b < 256 := h b (List.mem_cons_self _ _)
    rcases List.mem_cons.mp hc with h1 | hc'
    · subst h1
      exact hexChar_alphabet (by omega)
    rcases List.mem_cons.mp hc' with h2 | hc'' 
    · subst h2
      exact hexChar_alphabet (by omega)
    · exact ih (fun x hx => h x (List.mem_cons_of_mem b hx)) c hc''

lemma hexlify_lt128 {bs : List Nat} (h : ∀ b ∈ bs, b < 256) :
    ∀ c ∈ hexlify bs, c < 128 := by
  intro c hc
  rcases hexlify_alphabet bs h c hc with h' | h' <;> omega

lemma bytes_fromhex_hexlify : ∀ bs : List Nat, (∀ b ∈ bs, b < 256) →
    bytes_fromhex (hexlify bs) = bs := by
  intro bs
  induction bs with
  | nil => intro h; rfl
  | cons b bs ih =>
    intro h
    have hb : b < 256 := h b (List.mem_cons_self _ _)
    rw [hexlify_cons, bytes_fromhex]
    rw [hexDigitVal_hexChar (by omega), hexDigitVal_hexChar (by omega)]
    rw [ih (fun x hx => h x (List.mem_cons_of_mem b hx))]
    congr 1
    omega

/-! Shape of the MD5 digest. -/

lemma toLE4_lt256 (x : Nat) : ∀ b ∈ toLE4 x, b < 256 := by
  intro b hb
  simp [toLE4] at hb
  rcases hb with h | h | h | h <;> omega

lemma md5Bytes_lt256 (msg : List Nat) : ∀ b ∈ md5Bytes msg, b < 256 := by
  intro b hb
  unfold md5Bytes at hb
  simp only [List.mem_append] at hb
  rcases hb with ((h | h) | h) | h <;> exact toLE4_lt256 _ b h

lemma md5Bytes_length (msg : List Nat) : (md5Bytes msg).length = 16 := by
  simp [md5Bytes, toLE4]

lemma md5_hexdigest_length (msg : List Nat) : (md5_hexdigest msg).length = 32 := by
  rw [md5_hexdigest, hexlify_length, md5Bytes_length]

lemma md5_hexdigest_lt128 (msg : List Nat) : ∀ c ∈ md5_hexdigest msg, c < 128 :=
  hexlify_lt128 (md5Bytes_lt256 msg)

lemma md5_hexdigest_alphabet (msg : List Nat) :
    ∀ c ∈ md5_hexdigest msg, (48 ≤ c ∧ c ≤ 57) ∨ (97 ≤ c ∧ c ≤ 102) :=
  hexlify_alphabet (md5Bytes msg) (md5Bytes_lt256 msg)

lemma hexlify_fromhex_digest (msg : List Nat) :
    hexlify (bytes_fromhex (md5_hexdigest msg)) = md5_hexdigest msg := by
  rw [md5_hexdigest, bytes_fromhex_hexlify (md5Bytes msg) (md5Bytes_lt256 msg)]

/-! Behaviour of `patch_checksum`. -/

lemma append_take_tag {data t : List Nat} (ht : t.length = 32) :
    (data ++ t).take ((data ++ t).length - 32) = data ∧
    (data ++ t).drop ((data ++ t).length - 32) = t := by
  have hlen : (data ++ t).length - 32 = data.length := by
    simp [List.length_append, ht]
  rw [hlen]
  exact ⟨List.take_left data t, List.drop_left data t⟩

lemma take_append_left {l1 l2 : List Nat} {n : Nat} (h : l1.length = n) :
    (l1 ++ l2).take n = l1 := by
  subst h
  exact List.take_left l1 l2

lemma patch_checksum_patched {buf s : List Nat} (h32 : 32 ≤ buf.length)
    (hdec : utf8Decode (buf.drop (buf.length - 32)) = some s)
    (hne : buf.drop (buf.length - 32) ≠
      md5_hexdigest (CHECKSUM_SALT ++ buf.take (buf.length - 32))) :
    patch_checksum buf =
      (.ok true, buf.take (buf.length - 32) ++
        md5_hexdigest (CHECKSUM_SALT ++ buf.take (buf.length - 32))) := by
  have hsne : md5_hexdigest (CHECKSUM_SALT ++ buf.take (buf.length - 32)) ≠ s := by
    intro he
    apply hne
    have : ∀ c ∈ s, c < 128 := he ▸ md5_hexdigest_lt128 _
    rw [utf8Decode_ascii_inv hdec this, ← he]
  rw [patch_checksum, hdec, patch_decide]
  rw [if_pos hsne, if_neg (by omega : ¬ buf.length < 32), hexlify_fromhex_digest]

lemma patch_checksum_already_valid {buf : List Nat}
    (h : buf.drop (buf.length - 32) =
      md5_hexdigest (CHECKSUM_SALT ++ buf.take (buf.length - 32))) :
    patch_checksum buf = (.ok false, buf) := by
  have hdec : utf8Decode (buf.drop (buf.length - 32)) =
      some (buf.drop (buf.length - 32)) :=
    utf8Decode_ascii (fun c hc => md5_hexdigest_lt128 _ c (h ▸ hc))
  rw [patch_checksum, hdec, patch_decide]
  rw [if_neg (fun hne => hne h.symm)]

lemma patch_checksum_ok_tag {buf : List Nat} {r : Bool}
    (hok : (patch_checksum buf).1 = .ok r) :
    (patch_checksum buf).2.drop ((patch_checksum buf).2.length - 32) =
      md5_hexdigest (CHECKSUM_SALT ++
        (patch_checksum buf).2.take ((patch_checksum buf).2.length - 32)) := by
  cases hdec : utf8Decode (buf.drop (buf.length - 32)) with
  | none =>
    exfalso
    rw [patch_checksum, hdec, patch_decide] at hok
    exact absurd hok (by simp)
  | some s =>
    by_cases heq : md5_hexdigest (CHECKSUM_SALT ++ buf.take (buf.length - 32)) = s
    · have hs128 : ∀ c ∈ s, c < 128 := heq ▸ md5_hexdigest_lt128 _
      have htag : buf.drop (buf.length - 32) = s := utf8Decode_ascii_inv hdec hs128
      have hv := patch_checksum_already_valid (htag.trans heq.symm)
      rw [hv]
      exact htag.trans heq.symm
    · by_cases h32 : buf.length < 32
      · exfalso
        rw [patch_checksum, hdec, patch_decide, if_pos heq, if_pos h32] at hok
        exact absurd hok (by simp)
      · have hne : buf.drop (buf.length - 32) ≠
            md5_hexdigest (CHECKSUM_SALT ++ buf.take (buf.length - 32)) := by
          intro htageq
          apply heq
          have h1 : utf8Decode (buf.drop (buf.length - 32)) =
              some (buf.drop (buf.length - 32)) :=
            utf8Decode_ascii (fun c hc => md5_hexdigest_lt128 _ c (htageq ▸ hc))
          rw [h1] at hdec
          have h2 : buf.drop (buf.length - 32) = s := Option.some.inj hdec
          rw [← h2, ← htageq]
        have hp := patch_checksum_patched (by omega) hdec hne
        rw [hp]
        have hdl := md5_hexdigest_length (CHECKSUM_SALT ++ buf.take (buf.length - 32))
        obtain ⟨ht, hd⟩ := append_take_tag hdl
        rw [ht, hd]

lemma patch_checksum_take_eq (buf : List Nat) :
    (patch_checksum buf).2.take (buf.length - 32) = buf.take (buf.length - 32) := by
  cases hdec : utf8Decode (buf.drop (buf.length - 32)) with
  | none => rw [patch_checksum, hdec, patch_decide]
  | some s =>
    by_cases hne : md5_hexdigest (CHECKSUM_SALT ++ buf.take (buf.length - 32)) ≠ s
    · by_cases h32 : buf.length < 32
      · rw [patch_checksum, hdec, patch_decide, if_pos hne, if_pos h32]
      · rw [patch_checksum, hdec, patch_decide, if_pos hne, if_neg h32]
        have hlen : (buf.take (buf.length - 32)).length = buf.length - 32 := by
          rw [List.length_take]
          omega
        exact take_append_left hlen
    · rw [patch_checksum, hdec, patch_decide, if_neg hne]

lemma patch_checksum_error_iff (buf : List Nat) :
    (∃ e, (patch_checksum buf).1 = .error e) ↔
      (buf.length < 32 ∨ utf8Decode (buf.drop (buf.length - 32)) = none) := by
  cases hdec : utf8Decode (buf.drop (buf.length - 32)) with
  | none =>
    rw [patch_checksum, hdec, patch_decide]
    exact ⟨fun _ => Or.inr rfl, fun _ => ⟨.unicodeDecodeError, rfl⟩⟩
  | some s =>
    by_cases hne : md5_hexdigest (CHECKSUM_SALT ++ buf.take (buf.length - 32)) ≠ s
    · by_cases h32 : buf.length < 32
      · rw [patch_checksum, hdec, patch_decide, if_pos hne, if_pos h32]
        exact ⟨fun _ => Or.inl h32, fun _ => ⟨.seekOutOfRange, rfl⟩⟩
      · rw [patch_checksum, hdec, patch_decide, if_pos hne, if_neg h32]
        constructor
        · rintro ⟨e, he⟩
          exact absurd he (by simp)
        · rintro (h | h)
          · omega
          · exact absurd h (by simp)
    · push_neg at hne
      have h32 : ¬ buf.length < 32 := by
        intro hlt
        have hsl : s.length ≤ (buf.drop (buf.length - 32)).length :=
          utf8Decode_length_le hdec
        rw [List.length_drop] at hsl
        have hdl := md5_hexdigest_length (CHECKSUM_SALT ++ buf.take (buf.length - 32))
        rw [hne] at hdl
        omega
      rw [patch_checksum, hdec, patch_decide, if_neg (fun h => h hne)]
      constructor
      · rintro ⟨e, he⟩
        exact absurd he (by simp)
      · rintro (h | h)
        · omega
        · exact absurd h (by simp)

/-! Claim theorems for the checksum patcher. -/

/-- C3 (amended): for every buffer of length at least 32 whose stored tag
is UTF-8-decodable (as required for `checksum.decode()` not to raise) and
differs from the correct digest, `patch_checksum` overwrites the last 32
bytes with exactly the lowercase ASCII hex digest of `md5(salt || data)`
(32 bytes, lowercase hex alphabet only) and reports `Patched` (`True`);
consequently after the successful patch the invariant
`tag = hex(md5(salt || data))` holds on the resulting buffer. -/
theorem patch_checksum_stale_tag (buf s : List Nat) (h32 : 32 ≤ buf.length)
    (hdec : utf8Decode (buf.drop (buf.length - 32)) = some s)
    (hne : buf.drop (buf.length - 32) ≠
      md5_hexdigest (CHECKSUM_SALT ++ buf.take (buf.length - 32))) :
    patch_checksum buf =
      (.ok true, buf.take (buf.length - 32) ++
        md5_hexdigest (CHECKSUM_SALT ++ buf.take (buf.length - 32))) ∧
    (md5_hexdigest (CHECKSUM_SALT ++ buf.take (buf.length - 32))).length = 32 ∧
    (∀ c ∈ md5_hexdigest (CHECKSUM_SALT ++ buf.take (buf.length - 32)),
      (48 ≤ c ∧ c ≤ 57) ∨ (97 ≤ c ∧ c ≤ 102)) ∧
    (patch_checksum buf).2.drop ((patch_checksum buf).2.length - 32) =
      md5_hexdigest (CHECKSUM_SALT ++
        (patch_checksum buf).2.take ((patch_checksum buf).2.length - 32)) := by
  have hp := patch_checksum_patched h32 hdec hne
  exact ⟨hp, md5_hexdigest_length _, md5_hexdigest_alphabet _,
    patch_checksum_ok_tag (r := true) (by rw [hp])⟩

/-- Witness for C3: a 32-byte buffer holding the ASCII tag `"0" * 32` is
patched to the digest of the salt alone. -/
theorem patch_checksum_stale_tag_witness :
    32 ≤ (List.replicate 32 48).length ∧
    utf8Decode ((List.replicate 32 48).drop ((List.replicate 32 48).length - 32)) =
      some (List.replicate 32 48) ∧
    (List.replicate 32 48).drop ((List.replicate 32 48).length - 32) ≠
      md5_hexdigest (CHECKSUM_SALT ++
        (List.replicate 32 48).take ((List.replicate 32 48).length - 32)) ∧
    patch_checksum (List.replicate 32 48) =
      (.ok true, (List.replicate 32 48).take ((List.replicate 32 48).length - 32) ++
        md5_hexdigest (CHECKSUM_SALT ++
          (List.replicate 32 48).take ((List.replicate 32 48).length - 32))) :=
  ⟨by decide, by decide, by decide,
    (patch_checksum_stale_tag (List.replicate 32 48) (List.replicate 32 48)
      (by decide) (by decide) (by decide)).1⟩

/-- Counterexample to C3 as stated: a 32-byte buffer of `0xFF` bytes has a
stored tag different from the correct digest, yet `patch_checksum` raises
`UnicodeDecodeError` from `checksum.decode()` instead of patching. -/
theorem patch_checksum_stale_tag_cex :
    32 ≤ (List.replicate 32 255).length ∧
    (List.replicate 32 255).drop ((List.replicate 32 255).length - 32) ≠
      md5_hexdigest (CHECKSUM_SALT ++
        (List.replicate 32 255).take ((List.replicate 32 255).length - 32)) ∧
    (patch_checksum (List.replicate 32 255)).1 =
      Except.error PatchError.unicodeDecodeError :=
  ⟨by decide, by decide, by decide⟩

/-- C4 (amended): `patch_checksum` is idempotent across successful calls:
for every buffer of length at least 32 on which one call returns normally
(either outcome), a second call leaves every byte of the resulting buffer
unchanged and returns `AlreadyValid` (`False`). -/
theorem patch_checksum_idempotent (buf : List Nat) (r : Bool)
    (h32 : 32 ≤ buf.length) (hok : (patch_checksum buf).1 = .ok r) :
    patch_checksum (patch_checksum buf).2 = (.ok false, (patch_checksum buf).2) :=
  patch_checksum_already_valid (patch_checksum_ok_tag hok)

/-- Witness for C4: a 35-byte buffer with data `[1, 2, 3]` and tag
`"0" * 32` is patched by the first call, and the second call returns
`AlreadyValid` leaving the buffer unchanged. -/
theorem patch_checksum_idempotent_witness :
    32 ≤ (([1, 2, 3] ++ List.replicate 32 48 : List Nat)).length ∧
    (patch_checksum ([1, 2, 3] ++ List.replicate 32 48)).1 = .ok true ∧
    patch_checksum (patch_checksum ([1, 2, 3] ++ List.replicate 32 48)).2 =
      (.ok false, (patch_checksum ([1, 2, 3] ++ List.replicate 32 48)).2) :=
  ⟨by decide, by decide,
    patch_checksum_idempotent ([1, 2, 3] ++ List.replicate 32 48) true
      (by decide) (by decide)⟩

/-- Counterexample to C4 as stated: on the 32-byte buffer of `0xFF` bytes
(length at least 32) the first call raises instead of completing, and the
second call raises as well rather than returning `AlreadyValid`. -/
theorem patch_checksum_idempotent_cex :
    32 ≤ (List.replicate 32 255).length ∧
    (∃ e, (patch_checksum (List.replicate 32 255)).1 = .error e) ∧
    (patch_checksum (patch_checksum (List.replicate 32 255)).2).1 ≠ .ok false :=
  ⟨by decide, ⟨.unicodeDecodeError, by decide⟩, by decide⟩

/-- C5 (amended): `patch_checksum` fails on every buffer holding fewer
than 32 bytes (the end-relative seek raises there, not a dedicated
`BufferTooSmall` error), but that is not the only failure mode: on any
buffer it fails exactly when the buffer is shorter than 32 bytes or the
stored 32-byte tag is not valid UTF-8 (`checksum.decode()` raises); on
buffers of length at least 32 with a UTF-8-decodable tag it succeeds. -/
theorem patch_checksum_error_characterization (buf : List Nat) :
    (∃ e, (patch_checksum buf).1 = .error e) ↔
      (buf.length < 32 ∨ utf8Decode (buf.drop (buf.length - 32)) = none) := by
  exact patch_checksum_error_iff buf

/-- Counterexample to C5 as stated: the 32-byte buffer starting with a
`0xFF` byte is long enough, yet `patch_checksum` fails on it with a
decode error. -/
theorem patch_checksum_error_characterization_cex :
    32 ≤ (255 :: List.replicate 31 0 : List Nat).length ∧
    (patch_checksum (255 :: List.replicate 31 0)).1 =
      Except.error PatchError.unicodeDecodeError :=
  ⟨by decide, by decide⟩

/-- C8: `patch_checksum` modifies at most the final 32 bytes: every byte
before the tag region is unchanged by the call (on success and on failure
alike), and when the computed digest already equals the stored tag it
returns `AlreadyValid` (`False`) and writes nothing at all. -/
theorem patch_checksum_frame (buf : List Nat) :
    (patch_checksum buf).2.take (buf.length - 32) = buf.take (buf.length - 32) ∧
    (buf.drop (buf.length - 32) =
        md5_hexdigest (CHECKSUM_SALT ++ buf.take (buf.length - 32)) →
      patch_checksum buf = (.ok false, buf)) :=
  ⟨patch_checksum_take_eq buf, patch_checksum_already_valid⟩

/-- Witness for C8: the 32-byte buffer that is exactly the digest of the
salt is already valid; the call returns `AlreadyValid` and changes
nothing. -/
theorem patch_checksum_frame_witness :
    patch_checksum (md5_hexdigest (CHECKSUM_SALT ++ [])) =
      (.ok false, md5_hexdigest (CHECKSUM_SALT ++ [])) :=
  (patch_checksum_frame (md5_hexdigest (CHECKSUM_SALT ++ []))).2 (by decide)
